import Mathlib

/-!
# Verification of the Yunfeng freight-dispatch simulation core

Shallow embedding of the simulation engine in `src/index.tsx`
(`runSimulation` inside `YunfengDashboard`): order generation, the
urgency/distance priority sort, the greedy owned-vs-outsourced allocator,
and the cost/CO2 aggregation.  The sibling file
`src/src/components/YunfengDashboard.tsx` contains the same engine and
differs only in the order-generator geometry constants (map height,
port position, distance scale/offset); we embed the `index.tsx` values.

Modelling conventions:
* JavaScript numbers are modelled as exact rationals (`ℚ`); the integer
  quantities (counts, distances) are `ℕ`; the two slider inputs are `ℤ`
  so that the behaviour on negative inputs is expressible.
* `Math.random()` draws are an explicit input: a stream of rational
  draws, one bundle of five per generated order, mirroring the five
  `Math.random()` calls per order in the source.
* `Math.sqrt` is `Real.sqrt` (the generator is therefore marked
  noncomputable; everything downstream of generation is computable).
* `Array.prototype.sort` with the comparator is modelled as the stable
  `List.mergeSort` under `comparator a b ≤ 0`, which is the unique
  stable sorted permutation mandated by ECMAScript for a consistent
  comparator.
* The allocator's loop (a `map` over the sorted list mutating a closure
  counter) is modelled as structural recursion threading the five
  accumulators (`availableTrucks`, `ownedCount`, `outsourcedCount`,
  `currentCost`, `kmCount`) and emitting the schedule log in visit
  order.
-/

/-- `const COST_OWNED_FIXED = 300` (src/index.tsx line 17). -/
def COST_OWNED_FIXED : ℚ := 300

/-- `const COST_OWNED_PER_KM = 13.5` (line 18). -/
def COST_OWNED_PER_KM : ℚ := 13.5

/-- `const COST_3RD_PARTY_FIXED = 2000` (line 19). -/
def COST_3RD_PARTY_FIXED : ℚ := 2000

/-- `const COST_3RD_PARTY_PER_KM = 14.0` (line 20). -/
def COST_3RD_PARTY_PER_KM : ℚ := 14.0

/-- `const CO2_PER_KM = 0.27` (line 21). -/
def CO2_PER_KM : ℚ := 0.27

/-- `const MAP_WIDTH = 800` (line 24). -/
def MAP_WIDTH : ℚ := 800

/-- `const MAP_HEIGHT = 500` (line 25). -/
def MAP_HEIGHT : ℚ := 500

/-- `const PORT_X = MAP_WIDTH * 0.8` (line 26). -/
def PORT_X : ℚ := MAP_WIDTH * 0.8

/-- `const PORT_Y = MAP_HEIGHT * 0.5` (line 27). -/
def PORT_Y : ℚ := MAP_HEIGHT * 0.5

/-- The inline literal `1.153` of `manualEst = currentCost * 1.153`
(line 147); the spec calls it the manual inflation factor. -/
def MANUAL_FACTOR : ℚ := 1.153

/-- `type OrderType = 'Door-to-Door' | 'Warehouse'` (line 30). -/
inductive OrderType where
  | doorToDoor
  | warehouse
deriving DecidableEq

/-- `type ContainerSize = '20GP' | '40GP'` (line 31). -/
inductive ContainerSize where
  | twentyGP
  | fortyGP
deriving DecidableEq

/-- The `urgency: 'Normal' | 'Urgent'` field type (line 37). -/
inductive Urgency where
  | Normal
  | Urgent
deriving DecidableEq

/-- The `status: 'Pending' | 'Assigned' | 'Outsourced'` field type (line 41). -/
inductive OrderStatus where
  | Pending
  | Assigned
  | Outsourced
deriving DecidableEq

/-- `interface Order` (lines 33-42). -/
structure Order where
  id : String
  type : OrderType
  size : ContainerSize
  urgency : Urgency
  distance : ℕ
  x : ℚ
  y : ℚ
  status : OrderStatus
deriving DecidableEq

/-- One bundle of the five `Math.random()` values consumed while
generating a single order (lines 74-85), in call order: position x,
position y, order type, container size, urgency. -/
structure RandomDraws where
  xr : ℚ
  yr : ℚ
  typeR : ℚ
  sizeR : ℚ
  urgencyR : ℚ

/-- One iteration of the order-generation `map` (lines 72-91): random
position clustered to the hinterland, Euclidean pixel distance to the
port scaled to km (`Math.floor(distPx * 0.5) + 50`), weighted draws for
type/size/urgency, status initialised to `'Pending'`. -/
noncomputable def genOrder (draws : ℕ → RandomDraws) (i : ℕ) : Order :=
  let d := draws i
  let x : ℚ := d.xr * (MAP_WIDTH * 0.7) + 20
  let y : ℚ := d.yr * (MAP_HEIGHT - 40) + 20
  let distPx : ℝ := Real.sqrt (((x : ℝ) - (PORT_X : ℝ)) ^ 2 + ((y : ℝ) - (PORT_Y : ℝ)) ^ 2)
  let distKm : ℕ := ⌊distPx * 0.5⌋₊ + 50
  { id := "ORD-" ++ Nat.repr (1000 + i)
    type := if d.typeR > 0.4 then .doorToDoor else .warehouse
    size := if d.sizeR > 0.5 then .fortyGP else .twentyGP
    urgency := if d.urgencyR > 0.8 then .Urgent else .Normal
    distance := distKm
    x := x
    y := y
    status := .Pending }

/-- `Array.from({ length: numOrders }).map((_, i) => ...)` (line 72).
`Array.from` clamps a negative length to 0, so a negative `numOrders`
yields the empty list. -/
noncomputable def generateOrders (numOrders : ℤ) (draws : ℕ → RandomDraws) : List Order :=
  (List.range numOrders.toNat).map (genOrder draws)

/-- The sort comparator (lines 94-98): urgent strictly first, then
descending distance (`return b.distance - a.distance`). -/
def compareOrders (a b : Order) : ℤ :=
  if a.urgency = .Urgent ∧ b.urgency ≠ .Urgent then -1
  else if a.urgency ≠ .Urgent ∧ b.urgency = .Urgent then 1
  else (b.distance : ℤ) - (a.distance : ℤ)

/-- `a` may precede `b` in the sorted output: `comparator a b ≤ 0`. -/
def dispatchLE (a b : Order) : Bool := decide (compareOrders a b ≤ 0)

/-- `[...newOrders].sort(comparator)` (line 94): the stable sort by the
comparator, modelled as stable merge sort. -/
def sortOrders (l : List Order) : List Order := l.mergeSort dispatchLE

/-- One entry of `scheduleLog` (lines 133-139):
`{orderId, vehicleId, method, cost, distance}`. -/
structure DispatchRecord where
  orderId : String
  vehicleId : String
  method : String
  cost : ℚ
  distance : ℕ
deriving DecidableEq

/-- The schedule entry pushed in the owned branch (lines 113-120):
cost `COST_OWNED_FIXED + distance * COST_OWNED_PER_KM`, method
`'Owned'`, vehicle label `VEH-${ownedCount}` where `n` is the value of
`ownedCount` after the increment. -/
def ownedEntry (o : Order) (n : ℕ) : DispatchRecord :=
  { orderId := o.id
    vehicleId := "VEH-" ++ Nat.repr n
    method := "Owned"
    cost := COST_OWNED_FIXED + (o.distance : ℚ) * COST_OWNED_PER_KM
    distance := o.distance }

/-- The schedule entry pushed in the outsourcing branch (lines 121-128):
cost `COST_3RD_PARTY_FIXED + distance * COST_3RD_PARTY_PER_KM`, method
`'Outsourced'`, vehicle label `'3RD-PARTY'`. -/
def outsourcedEntry (o : Order) : DispatchRecord :=
  { orderId := o.id
    vehicleId := "3RD-PARTY"
    method := "Outsourced"
    cost := COST_3RD_PARTY_FIXED + (o.distance : ℚ) * COST_3RD_PARTY_PER_KM
    distance := o.distance }

/-- The allocator's whole state after the pass: the schedule log, the
orders with their final statuses (in visit order, which is what
`setOrders(simulatedOrders)` receives), and the five numeric
accumulators of lines 101-105. -/
structure AllocState where
  scheduleLog : List DispatchRecord
  simulatedOrders : List Order
  ownedCount : ℕ
  outsourcedCount : ℕ
  currentCost : ℚ
  kmCount : ℕ
  availableTrucks : ℤ
deriving DecidableEq

/-- The allocation pass (lines 108-142): visit the sorted orders once;
while `availableTrucks > 0` decrement it, bump `ownedCount`, set the
order's status to `'Assigned'` and log an owned entry, otherwise bump
`outsourcedCount`, set the status to `'Outsourced'` and log a
third-party entry; accumulate cost and km either way. -/
def allocate (availableTrucks : ℤ) (ownedCount outsourcedCount : ℕ)
    (currentCost : ℚ) (kmCount : ℕ) : List Order → AllocState
  | [] =>
    { scheduleLog := []
      simulatedOrders := []
      ownedCount := ownedCount
      outsourcedCount := outsourcedCount
      currentCost := currentCost
      kmCount := kmCount
      availableTrucks := availableTrucks }
  | order :: rest =>
    if 0 < availableTrucks then
      let owned := ownedCount + 1
      let entry := ownedEntry order owned
      let r := allocate (availableTrucks - 1) owned outsourcedCount
        (currentCost + entry.cost) (kmCount + order.distance) rest
      { r with
          scheduleLog := entry :: r.scheduleLog
          simulatedOrders := { order with status := .Assigned } :: r.simulatedOrders }
    else
      let entry := outsourcedEntry order
      let r := allocate availableTrucks ownedCount (outsourcedCount + 1)
        (currentCost + entry.cost) (kmCount + order.distance) rest
      { r with
          scheduleLog := entry :: r.scheduleLog
          simulatedOrders := { order with status := .Outsourced } :: r.simulatedOrders }

/-- The allocator as invoked by `runSimulation`: all accumulators start
at zero and `availableTrucks = fleetSize` (lines 101-105). -/
def runAllocation (fleetSize : ℤ) (orders : List Order) : AllocState :=
  allocate fleetSize 0 0 0 0 orders

/-- The result object built at lines 151-160. -/
structure SimulationResult where
  schedule : List DispatchRecord
  totalCost : ℚ
  ownedUsage : ℕ
  outsourcedUsage : ℕ
  totalKm : ℕ
  manualCostEst : ℚ
  savings : ℚ
  co2 : ℚ
deriving DecidableEq

/-- Steps 4 of `runSimulation` (lines 144-160): derive the manual-cost
baseline `currentCost * 1.153`, the savings, and `co2 = kmCount * CO2_PER_KM`,
and package the result snapshot. -/
def aggregate (a : AllocState) : SimulationResult :=
  let manualEst := a.currentCost * MANUAL_FACTOR
  { schedule := a.scheduleLog
    totalCost := a.currentCost
    ownedUsage := a.ownedCount
    outsourcedUsage := a.outsourcedCount
    totalKm := a.kmCount
    manualCostEst := manualEst
    savings := manualEst - a.currentCost
    co2 := (a.kmCount : ℚ) * CO2_PER_KM }

/-- The deterministic tail of `runSimulation` (sort, allocate,
aggregate), taking the already-generated order list; returns the result
snapshot and the orders with their final statuses (what `setResult` and
`setOrders` receive). -/
def simulate (fleetSize : ℤ) (orders : List Order) : SimulationResult × List Order :=
  let sortedOrders := sortOrders orders
  let a := runAllocation fleetSize sortedOrders
  (aggregate a, a.simulatedOrders)

/-- `runSimulation` end to end (lines 70-161), with the random stream
as an explicit argument. -/
noncomputable def runSimulation (numOrders fleetSize : ℤ) (draws : ℕ → RandomDraws) :
    SimulationResult × List Order :=
  simulate fleetSize (generateOrders numOrders draws)

/-- Numeric value of a decimal digit character. -/
def digitVal (c : Char) : ℕ := c.toNat - 48

/-- Decode a decimal digit string, most significant digit first. -/
def decodeDigits (cs : List Char) : ℕ := cs.foldl (fun a c => 10 * a + digitVal c) 0

/-- A fixed urgent order used as a concrete test input. -/
def testOrder1 : Order :=
  { id := "ORD-A", type := .doorToDoor, size := .fortyGP, urgency := .Urgent,
    distance := 80, x := 100, y := 100, status := .Pending }

/-- A fixed normal order used as a concrete test input. -/
def testOrder2 : Order :=
  { id := "ORD-B", type := .warehouse, size := .twentyGP, urgency := .Normal,
    distance := 10, x := 200, y := 200, status := .Pending }

/-- A two-order batch, already in dispatch order. -/
def testOrders : List Order := [testOrder1, testOrder2]

/-- An all-zero random stream, used to instantiate generator theorems. -/
def zeroDraws : ℕ → RandomDraws := fun _ => ⟨0, 0, 0, 0, 0⟩

/-! ## Decimal representation: `Nat.repr` is injective

Needed to show the sequential owned-vehicle labels `VEH-1 … VEH-k` are
pairwise distinct strings. -/

theorem toDigitsCore_ten_append (fuel n : ℕ) (ds : List Char) :
    Nat.toDigitsCore 10 fuel n ds = Nat.toDigitsCore 10 fuel n [] ++ ds := by
  induction fuel generalizing n ds with
  | zero => simp [Nat.toDigitsCore]
  | succ fuel ih =>
    simp only [Nat.toDigitsCore]
    by_cases h : n / 10 = 0
    · simp [h]
    · simp only [h, if_neg, ite_false]
      rw [ih (n / 10) (Nat.digitChar (n % 10) :: ds),
        ih (n / 10) [Nat.digitChar (n % 10)]]
      simp

theorem toDigitsCore_ten_fuel (fuel fuel' n : ℕ) (ds : List Char)
    (h : n < fuel) (h' : n < fuel') :
    Nat.toDigitsCore 10 fuel n ds = Nat.toDigitsCore 10 fuel' n ds := by
  induction fuel generalizing fuel' n ds with
  | zero => omega
  | succ fuel ih =>
    cases fuel' with
    | zero => omega
    | succ fuel' =>
      simp only [Nat.toDigitsCore]
      by_cases h0 : n / 10 = 0
      · simp [h0]
      · simp only [h0, if_neg, ite_false]
        have hdiv : n / 10 < n := Nat.div_lt_self (by omega) (by omega)
        exact ih fuel' (n / 10) _ (by omega) (by omega)

theorem toDigits_ten_eq (n : ℕ) :
    Nat.toDigits 10 n =
      if n < 10 then [Nat.digitChar n]
      else Nat.toDigits 10 (n / 10) ++ [Nat.digitChar (n % 10)] := by
  rw [Nat.toDigits]
  simp only [Nat.toDigitsCore]
  by_cases h : n < 10
  · have h0 : n / 10 = 0 := Nat.div_eq_of_lt h
    simp [h, h0, Nat.mod_eq_of_lt h]
  · have h0 : n / 10 ≠ 0 := by omega
    simp only [h, if_false, h0, ite_false]
    rw [toDigitsCore_ten_fuel n (n / 10 + 1) (n / 10) _ (by omega) (by omega),
      toDigitsCore_ten_append]
    rfl

theorem digitVal_digitChar (d : ℕ) (h : d < 10) :
    digitVal (Nat.digitChar d) = d := by
  interval_cases d <;> decide

theorem decodeDigits_append_singleton (cs : List Char) (c : Char) :
    decodeDigits (cs ++ [c]) = 10 * decodeDigits cs + digitVal c := by
  simp [decodeDigits, List.foldl_append]

theorem decodeDigits_toDigits (n : ℕ) : decodeDigits (Nat.toDigits 10 n) = n := by
  induction n using Nat.strong_induction_on with
  | _ n ih =>
    rw [toDigits_ten_eq]
    by_cases h : n < 10
    · simp only [h, if_true, ite_true]
      simp [decodeDigits, digitVal_digitChar n h]
    · have hdiv : n / 10 < n := Nat.div_lt_self (by omega) (by omega)
      simp only [h, if_false, ite_false]
      rw [decodeDigits_append_singleton, ih (n / 10) hdiv,
        digitVal_digitChar (n % 10) (Nat.mod_lt n (by omega))]
      omega

theorem natRepr_injective : Function.Injective Nat.repr := by
  intro m n h
  have hd : Nat.toDigits 10 m = Nat.toDigits 10 n := by
    have := congrArg String.data h
    simpa [Nat.repr, List.asString] using this
  have := congrArg decodeDigits hd
  rwa [decodeDigits_toDigits, decodeDigits_toDigits] at this

theorem vehLabel_injective (m n : ℕ)
    (h : "VEH-" ++ Nat.repr m = "VEH-" ++ Nat.repr n) : m = n := by
  have hd := congrArg String.data h
  simp only [String.data_append] at hd
  have := List.append_cancel_left hd
  exact natRepr_injective (by
    cases hm : Nat.repr m with
    | mk dm =>
      cases hn : Nat.repr n with
      | mk dn =>
        rw [hm, hn] at this
        simp_all)

/-! ## Allocator characterisation -/

theorem allocate_scheduleLog_length (t : ℤ) (ow os : ℕ) (c : ℚ) (k : ℕ)
    (l : List Order) :
    (allocate t ow os c k l).scheduleLog.length = l.length := by
  induction l generalizing t ow os c k with
  | nil => simp [allocate]
  | cons o rest ih =>
    by_cases h : 0 < t <;> simp [allocate, h, ih]

theorem allocate_simulatedOrders_length (t : ℤ) (ow os : ℕ) (c : ℚ) (k : ℕ)
    (l : List Order) :
    (allocate t ow os c k l).simulatedOrders.length = l.length := by
  induction l generalizing t ow os c k with
  | nil => simp [allocate]
  | cons o rest ih =>
    by_cases h : 0 < t <;> simp [allocate, h, ih]

theorem allocate_ownedCount (t : ℤ) (ow os : ℕ) (c : ℚ) (k : ℕ)
    (l : List Order) :
    (allocate t ow os c k l).ownedCount = ow + min t.toNat l.length := by
  induction l generalizing t ow os c k with
  | nil => simp [allocate]
  | cons o rest ih =>
    by_cases h : 0 < t <;> simp [allocate, h, ih] <;> omega

theorem allocate_outsourcedCount (t : ℤ) (ow os : ℕ) (c : ℚ) (k : ℕ)
    (l : List Order) :
    (allocate t ow os c k l).outsourcedCount =
      os + (l.length - min t.toNat l.length) := by
  induction l generalizing t ow os c k with
  | nil => simp [allocate]
  | cons o rest ih =>
    by_cases h : 0 < t <;> simp [allocate, h, ih] <;> omega

theorem allocate_availableTrucks (t : ℤ) (ow os : ℕ) (c : ℚ) (k : ℕ)
    (l : List Order) :
    (allocate t ow os c k l).availableTrucks = t - min t.toNat l.length := by
  induction l generalizing t ow os c k with
  | nil => simp [allocate]
  | cons o rest ih =>
    by_cases h : 0 < t <;> simp [allocate, h, ih] <;> omega

theorem allocate_scheduleLog_getElem? (t : ℤ) (ow os : ℕ) (c : ℚ) (k : ℕ)
    (l : List Order) (i : ℕ) :
    (allocate t ow os c k l).scheduleLog[i]? =
      l[i]?.map (fun o =>
        if i < t.toNat then ownedEntry o (ow + i + 1) else outsourcedEntry o) := by
  induction l generalizing t ow os c k i with
  | nil => simp [allocate]
  | cons o rest ih =>
    by_cases h : 0 < t
    · cases i with
      | zero =>
        have ht : 0 < t.toNat := by omega
        simp [allocate, h, ht]
      | succ j =>
        simp only [allocate, h, if_pos, ite_true, List.getElem?_cons_succ]
        rw [ih]
        cases rest[j]? with
        | none => rfl
        | some o' =>
          show some _ = some _
          dsimp only
          by_cases hj : j < (t - 1).toNat
          · rw [if_pos hj, if_pos (show j + 1 < t.toNat by omega)]
            have harg : ow + 1 + j + 1 = ow + (j + 1) + 1 := by omega
            rw [harg]
          · rw [if_neg hj, if_neg (show ¬ j + 1 < t.toNat by omega)]
    · cases i with
      | zero =>
        have ht : ¬ 0 < t.toNat := by omega
        simp [allocate, h, ht]
      | succ j =>
        simp only [allocate, h, if_neg, ite_false, List.getElem?_cons_succ]
        rw [ih]
        cases rest[j]? with
        | none => rfl
        | some o' =>
          show some _ = some _
          dsimp only
          rw [if_neg (show ¬ j < t.toNat by omega),
            if_neg (show ¬ j + 1 < t.toNat by omega)]

theorem allocate_simulatedOrders_getElem? (t : ℤ) (ow os : ℕ) (c : ℚ) (k : ℕ)
    (l : List Order) (i : ℕ) :
    (allocate t ow os c k l).simulatedOrders[i]? =
      l[i]?.map (fun o =>
        { o with status := if i < t.toNat then .Assigned else .Outsourced }) := by
  induction l generalizing t ow os c k i with
  | nil => simp [allocate]
  | cons o rest ih =>
    by_cases h : 0 < t
    · cases i with
      | zero =>
        have ht : 0 < t.toNat := by omega
        simp [allocate, h, ht]
      | succ j =>
        simp only [allocate, h, if_pos, ite_true, List.getElem?_cons_succ]
        rw [ih]
        cases rest[j]? with
        | none => rfl
        | some o' =>
          show some _ = some _
          dsimp only
          by_cases hj : j < (t - 1).toNat
          · rw [if_pos hj, if_pos (show j + 1 < t.toNat by omega)]
          · rw [if_neg hj, if_neg (show ¬ j + 1 < t.toNat by omega)]
    · cases i with
      | zero =>
        have ht : ¬ 0 < t.toNat := by omega
        simp [allocate, h, ht]
      | succ j =>
        simp only [allocate, h, if_neg, ite_false, List.getElem?_cons_succ]
        rw [ih]
        cases rest[j]? with
        | none => rfl
        | some o' =>
          show some _ = some _
          dsimp only
          rw [if_neg (show ¬ j < t.toNat by omega),
            if_neg (show ¬ j + 1 < t.toNat by omega)]

theorem allocate_currentCost (t : ℤ) (ow os : ℕ) (c : ℚ) (k : ℕ)
    (l : List Order) :
    (allocate t ow os c k l).currentCost =
      c + ((allocate t ow os c k l).scheduleLog.map DispatchRecord.cost).sum := by
  induction l generalizing t ow os c k with
  | nil => simp [allocate]
  | cons o rest ih =>
    by_cases h : 0 < t <;> simp [allocate, h, ih] <;> ring

theorem allocate_kmCount (t : ℤ) (ow os : ℕ) (c : ℚ) (k : ℕ)
    (l : List Order) :
    (allocate t ow os c k l).kmCount =
      k + ((allocate t ow os c k l).scheduleLog.map DispatchRecord.distance).sum := by
  induction l generalizing t ow os c k with
  | nil => simp [allocate]
  | cons o rest ih =>
    by_cases h : 0 < t <;> simp [allocate, ownedEntry, outsourcedEntry, h, ih] <;> omega

theorem allocate_currentCost_nonneg (t : ℤ) (ow os : ℕ) (c : ℚ) (k : ℕ)
    (l : List Order) (hc : 0 ≤ c) :
    0 ≤ (allocate t ow os c k l).currentCost := by
  induction l generalizing t ow os c k with
  | nil => simpa [allocate]
  | cons o rest ih =>
    by_cases h : 0 < t
    · simp only [allocate, h, if_pos, ite_true]
      apply ih
      have : (0 : ℚ) ≤ (o.distance : ℚ) * COST_OWNED_PER_KM := by
        unfold COST_OWNED_PER_KM; positivity
      unfold ownedEntry COST_OWNED_FIXED
      dsimp only
      linarith
    · simp only [allocate, h, if_neg, ite_false]
      apply ih
      have : (0 : ℚ) ≤ (o.distance : ℚ) * COST_3RD_PARTY_PER_KM := by
        unfold COST_3RD_PARTY_PER_KM; positivity
      unfold outsourcedEntry COST_3RD_PARTY_FIXED
      dsimp only
      linarith

theorem allocate_scheduleLog_map_orderId (t : ℤ) (ow os : ℕ) (c : ℚ) (k : ℕ)
    (l : List Order) :
    (allocate t ow os c k l).scheduleLog.map DispatchRecord.orderId =
      l.map Order.id := by
  induction l generalizing t ow os c k with
  | nil => simp [allocate]
  | cons o rest ih =>
    by_cases h : 0 < t <;> simp [allocate, ownedEntry, outsourcedEntry, h, ih]

theorem allocate_scheduleLog_map_distance (t : ℤ) (ow os : ℕ) (c : ℚ) (k : ℕ)
    (l : List Order) :
    (allocate t ow os c k l).scheduleLog.map DispatchRecord.distance =
      l.map Order.distance := by
  induction l generalizing t ow os c k with
  | nil => simp [allocate]
  | cons o rest ih =>
    by_cases h : 0 < t <;> simp [allocate, ownedEntry, outsourcedEntry, h, ih]

/-! ## The priority sort -/

theorem dispatchLE_trans (a b c : Order)
    (hab : dispatchLE a b) (hbc : dispatchLE b c) : dispatchLE a c := by
  simp only [dispatchLE, compareOrders, decide_eq_true_eq] at *
  cases ha : a.urgency <;> cases hb : b.urgency <;> cases hc : c.urgency <;>
    simp [ha, hb, hc] at * <;> omega

theorem dispatchLE_total (a b : Order) : dispatchLE a b || dispatchLE b a := by
  simp only [dispatchLE, compareOrders, Bool.or_eq_true, decide_eq_true_eq]
  cases ha : a.urgency <;> cases hb : b.urgency <;> simp [ha, hb] <;> omega

theorem dispatchLE_of_tie (a b : Order) (hu : a.urgency = b.urgency)
    (hd : a.distance = b.distance) : dispatchLE a b := by
  simp only [dispatchLE, compareOrders, decide_eq_true_eq]
  cases ha : a.urgency <;> cases hb : b.urgency <;> simp_all

theorem sortOrders_length (l : List Order) :
    (sortOrders l).length = l.length := by
  simp [sortOrders]

theorem sortOrders_perm (l : List Order) : (sortOrders l).Perm l :=
  List.mergeSort_perm l dispatchLE

theorem sortOrders_pairwise (l : List Order) :
    (sortOrders l).Pairwise (fun a b => dispatchLE a b) :=
  List.sorted_mergeSort dispatchLE_trans dispatchLE_total l

theorem sortOrders_stable (l : List Order) (p : Order → Bool)
    (hp : ∀ a b, p a → p b → dispatchLE a b) :
    (sortOrders l).filter p = l.filter p := by
  have hpair : (l.filter p).Pairwise (fun a b => dispatchLE a b) := by
    apply List.pairwise_of_forall_mem_list
    intro a ha b hb
    exact hp a b (List.of_mem_filter ha) (List.of_mem_filter hb)
  have hsub : List.Sublist (l.filter p) (sortOrders l) :=
    List.sublist_mergeSort dispatchLE_trans dispatchLE_total hpair
      (List.filter_sublist l)
  have hsub2 : List.Sublist ((l.filter p).filter p) ((sortOrders l).filter p) :=
    hsub.filter p
  have heq : (l.filter p).filter p = l.filter p := by
    rw [List.filter_eq_self]
    intro a ha
    exact List.of_mem_filter ha
  rw [heq] at hsub2
  have hlen : ((sortOrders l).filter p).length = (l.filter p).length :=
    ((sortOrders_perm l).filter p).length_eq
  exact (hsub2.eq_of_length hlen.symm).symm

/-! ## Further shared facts -/

theorem dispatchLE_spec (a b : Order) (h : dispatchLE a b) :
    (b.urgency = .Urgent → a.urgency = .Urgent) ∧
    (a.urgency = b.urgency → b.distance ≤ a.distance) := by
  simp only [dispatchLE, compareOrders, decide_eq_true_eq] at h
  cases ha : a.urgency <;> cases hb : b.urgency <;> simp_all

theorem sortOrders_testOrders : sortOrders testOrders = testOrders := by
  apply List.mergeSort_of_sorted
  decide

/-! ## The claims -/

/-- Claim C1: for every run with non-negative `fleetSize`, the owned and
outsourced counts partition the processed orders
(`ownedUsage + outsourcedUsage` equals the number of orders) and the
owned count never exceeds the fleet size. -/
theorem C1_count_invariants (fleetSize : ℤ) (orders : List Order)
    (hf : 0 ≤ fleetSize) :
    (simulate fleetSize orders).1.ownedUsage
        + (simulate fleetSize orders).1.outsourcedUsage = orders.length ∧
    ((simulate fleetSize orders).1.ownedUsage : ℤ) ≤ fleetSize := by
  simp only [simulate, aggregate, runAllocation]
  rw [allocate_ownedCount, allocate_outsourcedCount, sortOrders_length]
  constructor <;> omega

/-- Witness for C1 at `fleetSize = 1` and a concrete two-order batch. -/
theorem C1_count_invariants_witness :
    (0 : ℤ) ≤ 1 ∧
    ((simulate 1 testOrders).1.ownedUsage
        + (simulate 1 testOrders).1.outsourcedUsage = testOrders.length ∧
      ((simulate 1 testOrders).1.ownedUsage : ℤ) ≤ 1) :=
  ⟨by decide, C1_count_invariants 1 testOrders (by decide)⟩

/-- Claim C2: the allocator is a single pass over the sorted sequence
with a counter starting at `fleetSize`.  Order `i` of the dispatch
sequence is visited while trucks remain exactly when `i < fleetSize.toNat`
(the counter has then been decremented once per previous order); in that
case its status goes from its input value to `Assigned` in one step, its
record costs `COST_OWNED_FIXED + distanceKm * COST_OWNED_PER_KM` and
carries the sequential label `VEH-(i+1)`; otherwise the status becomes
`Outsourced` in one step, the cost is
`COST_3RD_PARTY_FIXED + distanceKm * COST_3RD_PARTY_PER_KM` with the
generic `3RD-PARTY` label.  The output order differs from the input only
in `status` (the one transition; nothing later reverts it), and the
final counter value is the initial one minus the number of owned
assignments. -/
theorem C2_allocator_visit (fleetSize : ℤ) (orders : List Order) (i : ℕ) :
    ((simulate fleetSize orders).1.schedule[i]? =
      (sortOrders orders)[i]?.map (fun o =>
        if i < fleetSize.toNat then ownedEntry o (i + 1) else outsourcedEntry o)) ∧
    ((simulate fleetSize orders).2[i]? =
      (sortOrders orders)[i]?.map (fun o =>
        { o with status := if i < fleetSize.toNat then .Assigned else .Outsourced })) ∧
    (runAllocation fleetSize (sortOrders orders)).availableTrucks =
      fleetSize - min fleetSize.toNat orders.length := by
  refine ⟨?_, ?_, ?_⟩
  · simp only [simulate, aggregate, runAllocation]
    rw [allocate_scheduleLog_getElem?]
    simp
  · simp only [simulate, runAllocation]
    rw [allocate_simulatedOrders_getElem?]
  · simp only [runAllocation]
    rw [allocate_availableTrucks, sortOrders_length]

/-- Claim C3: the dispatch sequence is totally ordered (no normal order
ever precedes an urgent one, and within equal urgency distance is
non-increasing), the sort is stable on ties (orders with equal urgency
and equal distance keep their original relative order), and the schedule
log lists its records in exactly the sorted dispatch order (its
`orderId`/`distance` columns are the sorted sequence's, position by
position), not generation order. -/
theorem C3_dispatch_sequence (orders : List Order) :
    (∀ (i j : ℕ) (a b : Order), i < j →
      (sortOrders orders)[i]? = some a → (sortOrders orders)[j]? = some b →
      (b.urgency = .Urgent → a.urgency = .Urgent) ∧
      (a.urgency = b.urgency → b.distance ≤ a.distance)) ∧
    (∀ (u : Urgency) (d : ℕ),
      (sortOrders orders).filter (fun o => decide (o.urgency = u ∧ o.distance = d)) =
        orders.filter (fun o => decide (o.urgency = u ∧ o.distance = d))) ∧
    (∀ fleetSize : ℤ,
      (simulate fleetSize orders).1.schedule.map DispatchRecord.orderId =
        (sortOrders orders).map Order.id ∧
      (simulate fleetSize orders).1.schedule.map DispatchRecord.distance =
        (sortOrders orders).map Order.distance) := by
  refine ⟨?_, ?_, ?_⟩
  · intro i j a b hij ha hb
    obtain ⟨hi, ha⟩ := List.getElem?_eq_some.mp ha
    obtain ⟨hj, hb⟩ := List.getElem?_eq_some.mp hb
    have hpair := List.pairwise_iff_getElem.mp (sortOrders_pairwise orders)
      i j hi hj hij
    rw [ha, hb] at hpair
    exact dispatchLE_spec a b hpair
  · intro u d
    apply sortOrders_stable
    intro a b ha hb
    simp only [decide_eq_true_eq] at ha hb
    exact dispatchLE_of_tie a b (ha.1.trans hb.1.symm) (ha.2.trans hb.2.symm)
  · intro fleetSize
    constructor
    · simp only [simulate, aggregate, runAllocation]
      rw [allocate_scheduleLog_map_orderId]
    · simp only [simulate, aggregate, runAllocation]
      rw [allocate_scheduleLog_map_distance]

/-- Witness for C3 on a concrete two-order batch: applies the sortedness
part at positions 0 and 1 of the sorted sequence. -/
theorem C3_dispatch_sequence_witness :
    (testOrder2.urgency = .Urgent → testOrder1.urgency = .Urgent) ∧
    (testOrder1.urgency = testOrder2.urgency →
      testOrder2.distance ≤ testOrder1.distance) :=
  (C3_dispatch_sequence testOrders).1 0 1 testOrder1 testOrder2 (by decide)
    (by rw [sortOrders_testOrders]; rfl) (by rw [sortOrders_testOrders]; rfl)

/-- Claim C4: boundary behaviour.  With no orders the schedule is empty
and every aggregate is zero; with `fleetSize = 0` no order is
owned-assigned and every order ends `Outsourced`; with
`fleetSize ≥ orderCount` nothing is outsourced. -/
theorem C4_boundaries :
    (∀ fleetSize : ℤ,
      (simulate fleetSize []).1.schedule = [] ∧
      (simulate fleetSize []).1.totalCost = 0 ∧
      (simulate fleetSize []).1.ownedUsage = 0 ∧
      (simulate fleetSize []).1.outsourcedUsage = 0 ∧
      (simulate fleetSize []).1.totalKm = 0 ∧
      (simulate fleetSize []).1.manualCostEst = 0 ∧
      (simulate fleetSize []).1.savings = 0 ∧
      (simulate fleetSize []).1.co2 = 0) ∧
    (∀ orders : List Order,
      (simulate 0 orders).1.ownedUsage = 0 ∧
      ∀ o ∈ (simulate 0 orders).2, o.status = .Outsourced) ∧
    (∀ (fleetSize : ℤ) (orders : List Order),
      (orders.length : ℤ) ≤ fleetSize →
      (simulate fleetSize orders).1.outsourcedUsage = 0) := by
  refine ⟨?_, ?_, ?_⟩
  · intro fleetSize
    simp [simulate, aggregate, runAllocation, sortOrders, allocate]
  · intro orders
    constructor
    · simp only [simulate, aggregate, runAllocation]
      rw [allocate_ownedCount]
      simp
    · intro o ho
      simp only [simulate, runAllocation] at ho
      obtain ⟨i, hi⟩ := List.mem_iff_getElem?.mp ho
      rw [allocate_simulatedOrders_getElem?] at hi
      cases hrest : (sortOrders orders)[i]? with
      | none => rw [hrest] at hi; simp at hi
      | some o' =>
        rw [hrest] at hi
        simp only [Option.map_some', Option.some.injEq] at hi
        rw [← hi]
        simp
  · intro fleetSize orders hle
    simp only [simulate, aggregate, runAllocation]
    rw [allocate_outsourcedCount, sortOrders_length]
    omega

/-- Witness for C4: its fleet-covers-all-orders part, applied at
`fleetSize = 5` on the concrete two-order batch. -/
theorem C4_boundaries_witness :
    (testOrders.length : ℤ) ≤ 5 ∧
    (simulate 5 testOrders).1.outsourcedUsage = 0 :=
  ⟨by decide, C4_boundaries.2.2 5 testOrders (by decide)⟩

/-- Claim C5: the reported aggregates equal the sums over the schedule
log (`totalCost` is the sum of record costs, `totalKm` the sum of record
distances) and `co2 = totalKm * CO2_PER_KM`. -/
theorem C5_aggregate_sums (fleetSize : ℤ) (orders : List Order) :
    (simulate fleetSize orders).1.totalCost =
      ((simulate fleetSize orders).1.schedule.map DispatchRecord.cost).sum ∧
    (simulate fleetSize orders).1.totalKm =
      ((simulate fleetSize orders).1.schedule.map DispatchRecord.distance).sum ∧
    (simulate fleetSize orders).1.co2 =
      ((simulate fleetSize orders).1.totalKm : ℚ) * CO2_PER_KM := by
  refine ⟨?_, ?_, rfl⟩
  · simp only [simulate, aggregate, runAllocation]
    rw [allocate_currentCost]
    simp
  · simp only [simulate, aggregate, runAllocation]
    rw [allocate_kmCount]
    simp

/-- Claim C6: `manualCostEst = totalCost * MANUAL_FACTOR`,
`savings = manualCostEst - totalCost`, and — since the factor `1.153`
exceeds 1 and every per-order cost is non-negative — the savings are
never negative. -/
theorem C6_savings (fleetSize : ℤ) (orders : List Order) :
    (simulate fleetSize orders).1.manualCostEst =
      (simulate fleetSize orders).1.totalCost * MANUAL_FACTOR ∧
    (simulate fleetSize orders).1.savings =
      (simulate fleetSize orders).1.manualCostEst
        - (simulate fleetSize orders).1.totalCost ∧
    0 ≤ (simulate fleetSize orders).1.savings := by
  refine ⟨rfl, rfl, ?_⟩
  simp only [simulate, aggregate, runAllocation]
  have h := allocate_currentCost_nonneg fleetSize 0 0 0 0 (sortOrders orders) le_rfl
  simp only [MANUAL_FACTOR]
  nlinarith [h]

/-- Claim C8: a run with zero orders short-circuits to an exactly-zero
result: every aggregate of the snapshot is `0` and the schedule is
empty.  (In this exact-rational embedding no `NaN`/`undefined` values
exist, and the engine contains no division at all, so the provable
content is the exact zeros.) -/
theorem C8_zero_orders_all_zero (fleetSize : ℤ) :
    (simulate fleetSize []).1.totalCost = 0 ∧
    (simulate fleetSize []).1.totalKm = 0 ∧
    (simulate fleetSize []).1.co2 = 0 ∧
    (simulate fleetSize []).1.manualCostEst = 0 ∧
    (simulate fleetSize []).1.savings = 0 ∧
    (simulate fleetSize []).1.schedule = [] := by
  simp [simulate, aggregate, runAllocation, sortOrders, allocate]

/-- Claim C7 counterexample: `runSimulation` performs no input
validation.  Invoked with the negative fleet size `-1` on a concrete
two-order batch, the run does not reject: allocation runs to completion,
producing a full two-entry schedule (all outsourced) — contradicting the
claim that a descriptive validation error is raised before any
allocation occurs.  (The source has no validation branch at all, so no
error outcome is even representable in its behaviour.) -/
theorem C7_counterexample :
    (simulate (-1) testOrders).1.schedule.length = 2 ∧
    (simulate (-1) testOrders).1.ownedUsage = 0 ∧
    (simulate (-1) testOrders).1.outsourcedUsage = 2 ∧
    ∀ r ∈ (simulate (-1) testOrders).1.schedule, r.method = "Outsourced" := by
  simp only [simulate, aggregate, runAllocation, sortOrders_testOrders]
  decide

/-- Claim C7 as amended: `runSimulation` does not validate its inputs.
A negative fleet size is processed as "no owned capacity": the run
completes with a full schedule, zero owned assignments, and every order
outsourced; a negative order count yields an empty generated batch (the
JavaScript `Array.from` length clamp), not an error. -/
theorem C7_no_validation (fleetSize : ℤ) (orders : List Order)
    (hf : fleetSize < 0) (numOrders : ℤ) (hn : numOrders < 0)
    (draws : ℕ → RandomDraws) :
    (simulate fleetSize orders).1.schedule.length = orders.length ∧
    (simulate fleetSize orders).1.ownedUsage = 0 ∧
    (∀ o ∈ (simulate fleetSize orders).2, o.status = .Outsourced) ∧
    generateOrders numOrders draws = [] := by
  refine ⟨?_, ?_, ?_, ?_⟩
  · simp only [simulate, aggregate, runAllocation]
    rw [allocate_scheduleLog_length, sortOrders_length]
  · simp only [simulate, aggregate, runAllocation]
    rw [allocate_ownedCount]
    omega
  · intro o ho
    simp only [simulate, runAllocation] at ho
    obtain ⟨i, hi⟩ := List.mem_iff_getElem?.mp ho
    rw [allocate_simulatedOrders_getElem?] at hi
    cases hrest : (sortOrders orders)[i]? with
    | none => rw [hrest] at hi; simp at hi
    | some o' =>
      rw [hrest] at hi
      simp only [Option.map_some', Option.some.injEq] at hi
      rw [← hi]
      have : ¬ i < fleetSize.toNat := by omega
      simp [this]
  · simp only [generateOrders]
    rw [Int.toNat_of_nonpos (by omega)]
    rfl

/-- Witness for the amended C7 at `fleetSize = -1`, `numOrders = -5`. -/
theorem C7_no_validation_witness :
    ((-1 : ℤ) < 0 ∧ (-5 : ℤ) < 0) ∧
    (simulate (-1) testOrders).1.schedule.length = testOrders.length ∧
    generateOrders (-5) zeroDraws = [] :=
  ⟨⟨by decide, by decide⟩,
    (C7_no_validation (-1) testOrders (by decide) (-5) (by decide) zeroDraws).1,
    (C7_no_validation (-1) testOrders (by decide) (-5) (by decide) zeroDraws).2.2.2⟩

/-- Claim C9: for every positive `orderCount` and every random stream
the generator returns exactly `orderCount` orders, all `Pending`, each
with `distanceKm` at least the configured minimum offset 50 (hence
non-negative); for `orderCount ≤ 0` it returns the empty list rather
than an error. -/
theorem C9_generator (numOrders : ℤ) (draws : ℕ → RandomDraws) :
    (0 < numOrders →
      ((generateOrders numOrders draws).length : ℤ) = numOrders ∧
      ∀ o ∈ generateOrders numOrders draws,
        o.status = .Pending ∧ 50 ≤ o.distance) ∧
    (numOrders ≤ 0 → generateOrders numOrders draws = []) := by
  constructor
  · intro h
    constructor
    · simp only [generateOrders, List.length_map, List.length_range]
      omega
    · intro o ho
      simp only [generateOrders, List.mem_map] at ho
      obtain ⟨i, -, rfl⟩ := ho
      exact ⟨rfl, Nat.le_add_left 50 _⟩
  · intro h
    simp only [generateOrders]
    rw [Int.toNat_of_nonpos h]
    rfl

/-- Witness for C9 at `orderCount = 2` with the all-zero random stream. -/
theorem C9_generator_witness :
    (0 : ℤ) < 2 ∧ ((generateOrders 2 zeroDraws).length : ℤ) = 2 :=
  ⟨by decide, ((C9_generator 2 zeroDraws).1 (by decide)).1⟩

/-- Claim C10 (implicit): with non-negative `fleetSize`, exactly
`min fleetSize orderCount` orders are owned-assigned — they are the
first `min fleetSize orderCount` positions of the dispatch sequence,
carrying the pairwise-distinct sequential labels `VEH-1 … VEH-ownedUsage`
and method `Owned` with final status `Assigned`, while every later
position is outsourced with the shared `3RD-PARTY` label and final
status `Outsourced`. -/
theorem C10_owned_assignment (fleetSize : ℤ) (orders : List Order)
    (hf : 0 ≤ fleetSize) :
    (simulate fleetSize orders).1.ownedUsage = min fleetSize.toNat orders.length ∧
    (∀ i, i < min fleetSize.toNat orders.length →
      (simulate fleetSize orders).1.schedule[i]?.map DispatchRecord.vehicleId =
        some ("VEH-" ++ Nat.repr (i + 1)) ∧
      (simulate fleetSize orders).1.schedule[i]?.map DispatchRecord.method =
        some "Owned" ∧
      (simulate fleetSize orders).2[i]?.map Order.status = some .Assigned) ∧
    (∀ i, min fleetSize.toNat orders.length ≤ i → i < orders.length →
      (simulate fleetSize orders).1.schedule[i]?.map DispatchRecord.vehicleId =
        some "3RD-PARTY" ∧
      (simulate fleetSize orders).1.schedule[i]?.map DispatchRecord.method =
        some "Outsourced" ∧
      (simulate fleetSize orders).2[i]?.map Order.status = some .Outsourced) ∧
    (∀ i j, i < min fleetSize.toNat orders.length →
      j < min fleetSize.toNat orders.length → i ≠ j →
      (simulate fleetSize orders).1.schedule[i]?.map DispatchRecord.vehicleId ≠
        (simulate fleetSize orders).1.schedule[j]?.map DispatchRecord.vehicleId) := by
  have hsched : ∀ i : ℕ, (simulate fleetSize orders).1.schedule[i]? =
      ((sortOrders orders)[i]?).map (fun o =>
        if i < fleetSize.toNat then ownedEntry o (i + 1) else outsourcedEntry o) := by
    intro i
    simp only [simulate, aggregate, runAllocation]
    rw [allocate_scheduleLog_getElem?]
    simp
  have hords : ∀ i : ℕ, (simulate fleetSize orders).2[i]? =
      ((sortOrders orders)[i]?).map (fun o =>
        { o with status := if i < fleetSize.toNat then OrderStatus.Assigned
                           else OrderStatus.Outsourced }) := by
    intro i
    simp only [simulate, runAllocation]
    rw [allocate_simulatedOrders_getElem?]
  have howned : ∀ i, i < min fleetSize.toNat orders.length →
      (simulate fleetSize orders).1.schedule[i]?.map DispatchRecord.vehicleId =
        some ("VEH-" ++ Nat.repr (i + 1)) ∧
      (simulate fleetSize orders).1.schedule[i]?.map DispatchRecord.method =
        some "Owned" ∧
      (simulate fleetSize orders).2[i]?.map Order.status = some .Assigned := by
    intro i hi
    have hlen : i < (sortOrders orders).length := by
      rw [sortOrders_length]; omega
    have hget : (sortOrders orders)[i]? = some ((sortOrders orders).get ⟨i, hlen⟩) :=
      List.getElem?_eq_getElem hlen
    have hlt : i < fleetSize.toNat := by omega
    refine ⟨?_, ?_, ?_⟩
    · rw [hsched i, hget]
      simp [hlt, ownedEntry]
    · rw [hsched i, hget]
      simp [hlt, ownedEntry]
    · rw [hords i, hget]
      simp [hlt]
  refine ⟨?_, howned, ?_, ?_⟩
  · simp only [simulate, aggregate, runAllocation]
    rw [allocate_ownedCount, sortOrders_length]
    omega
  · intro i hge hi
    have hlen : i < (sortOrders orders).length := by
      rw [sortOrders_length]; omega
    have hget : (sortOrders orders)[i]? = some ((sortOrders orders).get ⟨i, hlen⟩) :=
      List.getElem?_eq_getElem hlen
    have hlt : ¬ i < fleetSize.toNat := by omega
    refine ⟨?_, ?_, ?_⟩
    · rw [hsched i, hget]
      simp [hlt, outsourcedEntry]
    · rw [hsched i, hget]
      simp [hlt, outsourcedEntry]
    · rw [hords i, hget]
      simp [hlt]
  · intro i j hi hj hne heq
    rw [(howned i hi).1, (howned j hj).1] at heq
    simp only [Option.some.injEq] at heq
    exact hne (by have := vehLabel_injective (i + 1) (j + 1) heq; omega)

/-- Witness for C10 at `fleetSize = 1` on the concrete two-order batch. -/
theorem C10_owned_assignment_witness :
    (0 : ℤ) ≤ 1 ∧
    (simulate 1 testOrders).1.ownedUsage = min (1 : ℤ).toNat testOrders.length :=
  ⟨by decide, (C10_owned_assignment 1 testOrders (by decide)).1⟩
